import Mathlib

/-!
Verification development for the acpush push-session orchestrator
(lib/lib.go).  The Go code is shallowly embedded: pure fragments become
Lean functions, and the effectful session is a function from an
environment (the outcomes of the external collaborators: file system,
manifest extraction, name discovery, HTTP transport) to a trace of
network events plus the session's final error, mirroring the control
flow of Uploader.Upload and its helpers line by line.
-/

/-! Label mappings.  discovery.App.Labels is a string map and
schema.ImageManifest.Labels supports a Get lookup; both are embedded as
association lists with first-match lookup, and map assignment as an
upsert. -/

abbrev Labels := List (String × String)

def lookupLabel (ls : Labels) (k : String) : Option String :=
  match ls with
  | [] => none
  | (k', v) :: rest => if k' = k then some v else lookupLabel rest k

def setLabel (ls : Labels) (k v : String) : Labels :=
  match ls with
  | [] => [(k, v)]
  | (k', v') :: rest => if k' = k then (k, v) :: rest else (k', v') :: setLabel rest k v

/-! Label-name constants from lib.go lines 36-40. -/

def archLabelName : String := "arch"

def osLabelName : String := "os"

def extLabelName : String := "ext"

/-- Rendering of the Go verb %q for the plain label-name strings used
in the error messages of lib.go lines 103 and 111. -/
def quoteName (s : String) : String := "\"" ++ s ++ "\""

/-- The arch block of lib.go lines 100-106: a key absent from the
target name's labels is copied from the manifest labels, and if the
manifest also lacks it the block fails naming the key. -/
def resolveArchStep (app man : Labels) : Except String Labels :=
  match lookupLabel app archLabelName with
  | some _ => Except.ok app
  | none =>
    match lookupLabel man archLabelName with
    | some arch => Except.ok (setLabel app archLabelName arch)
    | none => Except.error ("manifest is missing label: " ++ quoteName archLabelName)

/-- The os block of lib.go lines 108-114, running on the mapping the
arch block produced. -/
def resolveOsStep (l1 man : Labels) : Except String Labels :=
  match lookupLabel l1 osLabelName with
  | some _ => Except.ok l1
  | none =>
    match lookupLabel man osLabelName with
    | some osv => Except.ok (setLabel l1 osLabelName osv)
    | none => Except.error ("manifest is missing label: " ++ quoteName osLabelName)

/-- The ext block of lib.go lines 116-118: an absent ext key is set to
the fixed image-extension literal; this block has no error path. -/
def resolveExtStep (ext : String) (l2 : Labels) : Labels :=
  match lookupLabel l2 extLabelName with
  | some _ => l2
  | none => setLabel l2 extLabelName ext

/-- Label resolution, embedding lib.go lines 100-118 as its three
sequential blocks.  The ext argument is the fixed image-extension
literal (the trimmed schema.ACIExtension), which lives in the external
appc spec dependency.  The Go code mutates app.Labels in place; the
embedding returns the updated mapping. -/
def resolveLabels (ext : String) (app man : Labels) : Except String Labels :=
  match resolveArchStep app man with
  | Except.error e => Except.error e
  | Except.ok l1 =>
    match resolveOsStep l1 man with
    | Except.error e => Except.error e
    | Except.ok l2 => Except.ok (resolveExtStep ext l2)

/-! Basic lookup/upsert lemmas. -/

theorem lookupLabel_setLabel_same (ls : Labels) (k v : String) :
    lookupLabel (setLabel ls k v) k = some v := by
  induction ls with
  | nil => simp [setLabel, lookupLabel]
  | cons p rest ih =>
    obtain ⟨k', v'⟩ := p
    by_cases h : k' = k
    · simp [setLabel, lookupLabel, h]
    · simp [setLabel, lookupLabel, h, ih]

theorem lookupLabel_setLabel_ne (ls : Labels) (k v k' : String) (h : k' ≠ k) :
    lookupLabel (setLabel ls k v) k' = lookupLabel ls k' := by
  induction ls with
  | nil => simp [setLabel, lookupLabel, Ne.symm h]
  | cons p rest ih =>
    obtain ⟨k0, v0⟩ := p
    by_cases h0 : k0 = k
    · subst h0
      simp [setLabel, lookupLabel, Ne.symm h]
    · by_cases h1 : k0 = k'
      · simp [setLabel, lookupLabel, h0, h1, h]
      · simp [setLabel, lookupLabel, h0, h1, ih]

example : resolveLabels "aci" [("arch", "amd64")] [("os", "linux")] =
    Except.ok [("arch", "amd64"), ("os", "linux"), ("ext", "aci")] := by rfl

example : resolveLabels "aci" [] [("arch", "amd64")] =
    Except.error "manifest is missing label: \"os\"" := by rfl

/-! JSON model.  Go's encoding/json documents are embedded as a value
tree; a response body is either a valid JSON document (some value) or
bytes that fail to parse (none). -/

inductive JVal where
  | null : JVal
  | boolVal : Bool → JVal
  | num : Int → JVal
  | str : String → JVal
  | arr : List JVal → JVal
  | obj : List (String × JVal) → JVal

abbrev Body := Option JVal

/-- Lookup of an object key with the last duplicate winning, as
encoding/json populates struct fields. -/
def lookupJson (fields : List (String × JVal)) (k : String) : Option JVal :=
  match fields with
  | [] => none
  | (k', v) :: rest =>
    match lookupJson rest k with
    | some v' => some v'
    | none => if k' = k then some v else none

/-- Decoding of one string-typed struct field: an absent key or a JSON
null leaves the zero value, a JSON string is taken as is, and any other
value is a type error, as encoding/json behaves. -/
def jsonStrField (fields : List (String × JVal)) (k : String) : Except String String :=
  match lookupJson fields k with
  | none => Except.ok ""
  | some JVal.null => Except.ok ""
  | some (JVal.str s) => Except.ok s
  | some _ => Except.error ("json: cannot unmarshal value into string field " ++ k)

/-- Decoding of one bool-typed struct field, mirroring jsonStrField. -/
def jsonBoolField (fields : List (String × JVal)) (k : String) : Except String Bool :=
  match lookupJson fields k with
  | none => Except.ok false
  | some JVal.null => Except.ok false
  | some (JVal.boolVal b) => Except.ok b
  | some _ => Except.error ("json: cannot unmarshal value into bool field " ++ k)

/-! Wire structures from lib.go lines 42-55, with the Go field names. -/

structure initiateDetails where
  ACIPushVersion : String
  Multipart : Bool
  ManifestURL : String
  SignatureURL : String
  ACIURL : String
  CompletedURL : String
deriving Repr, DecidableEq

structure completeMsg where
  Success : Bool
  Reason : String
  ServerReason : String
deriving Repr, DecidableEq

/-- Decoding a JSON document into initiateDetails: a JSON null leaves
the zero struct, an object populates the six tagged fields (absent or
null keys keep zero values, wrongly typed keys are errors), and any
non-object document is a type error, as json.Unmarshal into a struct
pointer behaves. -/
def unmarshalInitiateDetails (v : JVal) : Except String initiateDetails :=
  match v with
  | JVal.null => Except.ok ⟨"", false, "", "", "", ""⟩
  | JVal.obj fields =>
    match jsonStrField fields "aci_push_version" with
    | Except.error e => Except.error e
    | Except.ok ver =>
    match jsonBoolField fields "multipart" with
    | Except.error e => Except.error e
    | Except.ok mp =>
    match jsonStrField fields "upload_manifest_url" with
    | Except.error e => Except.error e
    | Except.ok mu =>
    match jsonStrField fields "upload_signature_url" with
    | Except.error e => Except.error e
    | Except.ok su =>
    match jsonStrField fields "upload_aci_url" with
    | Except.error e => Except.error e
    | Except.ok au =>
    match jsonStrField fields "completed_url" with
    | Except.error e => Except.error e
    | Except.ok cu => Except.ok ⟨ver, mp, mu, su, au, cu⟩
  | _ => Except.error "json: cannot unmarshal non-object value into initiateDetails"

/-- Decoding a JSON document into completeMsg, with the same
encoding/json conventions as unmarshalInitiateDetails. -/
def unmarshalCompleteMsg (v : JVal) : Except String completeMsg :=
  match v with
  | JVal.null => Except.ok ⟨false, "", ""⟩
  | JVal.obj fields =>
    match jsonBoolField fields "success" with
    | Except.error e => Except.error e
    | Except.ok s =>
    match jsonStrField fields "reason" with
    | Except.error e => Except.error e
    | Except.ok r =>
    match jsonStrField fields "server_reason" with
    | Except.error e => Except.error e
    | Except.ok sr => Except.ok ⟨s, r, sr⟩
  | _ => Except.error "json: cannot unmarshal non-object value into completeMsg"

/-- Serialization of a completeMsg by json.Marshal with the omitempty
tags of lib.go lines 51-55: the reason and server-reason keys are
emitted only when nonempty. -/
def marshalCompleteMsg (m : completeMsg) : JVal :=
  JVal.obj
    ([("success", JVal.boolVal m.Success)] ++
     (if m.Reason = "" then [] else [("reason", JVal.str m.Reason)]) ++
     (if m.ServerReason = "" then [] else [("server_reason", JVal.str m.ServerReason)]))

/-! Transport model, embedding Uploader.performRequest (lib.go lines
275-322).  A run of the HTTP client is driven by the chain of responses
the server returns to the successive requests: each element either
redirects to the next, or ends the exchange with a status code and a
body. -/

inductive HResp where
  | redirect : HResp
  | status : Nat → Body → HResp

/-- CheckRedirect callback from lib.go lines 299-305: with via prior
requests already made, a tenth hop is refused; otherwise the auth
header hook runs on the redirected request. -/
def checkRedirect (via : Nat) : Except String Unit :=
  if 10 ≤ via then Except.error "too many redirects" else Except.ok ()

/-- One client.Do call: walks the response chain from a given count of
already-sent requests, returning how many times the header hook ran on
redirect targets together with the final status and body (or the
redirect-ceiling error).  An exhausted chain stands for a connection
failure. -/
def clientDo (chain : List HResp) (sent : Nat) : Nat × Except String (Nat × Body) :=
  match chain with
  | [] => (0, Except.error "connection failed")
  | HResp.status code body :: _ => (0, Except.ok (code, body))
  | HResp.redirect :: rest =>
    match checkRedirect (sent + 1) with
    | Except.error e => (0, Except.error e)
    | Except.ok _ =>
      let r := clientDo rest (sent + 1)
      (r.1 + 1, r.2)

/-- Status classification from lib.go lines 312-320: 200 and 400 hand
the readable body to the caller; any other code closes the body (the
returned flag) and fails carrying the numeric code. -/
def classifyStatus (code : Nat) (body : Body) : Except String Body × Bool :=
  if code = 200 then (Except.ok body, false)
  else if code = 400 then (Except.ok body, false)
  else (Except.error ("bad HTTP status code: " ++ toString code), true)

/-- The network phase of performRequest: the header hook runs once on
the initial request (lib.go line 295) and once per followed redirect,
and the final status is classified.  Returns the total number of header
hook invocations and the outcome. -/
def performRequest (chain : List HResp) : Nat × Except String Body :=
  let r := clientDo chain 0
  (r.1 + 1,
   match r.2 with
   | Except.error e => Except.error e
   | Except.ok cb => (classifyStatus cb.1 cb.2).1)

/-- Session initiation, embedding Uploader.initiateUpload (lib.go lines
197-223) downstream of the transport: a transport failure propagates, a
body that is not valid JSON is a decode error, and otherwise the
decoded details (with zero values for absent fields) are returned. -/
def initiateUpload (resp : Except String Body) : Except String initiateDetails :=
  match resp with
  | Except.error e => Except.error e
  | Except.ok none => Except.error "unexpected end of JSON input"
  | Except.ok (some v) => unmarshalInitiateDetails v

/-- Completion call, embedding Uploader.complete (lib.go lines
250-273) downstream of the transport: transport and decode failures
propagate, and a decoded reply whose success field is false fails
carrying the server-supplied reason. -/
def complete (resp : Except String Body) : Except String Unit :=
  match resp with
  | Except.error e => Except.error e
  | Except.ok none => Except.error "unexpected end of JSON input"
  | Except.ok (some v) =>
    match unmarshalCompleteMsg v with
    | Except.error e => Except.error e
    | Except.ok reply =>
      if reply.Success then Except.ok () else Except.error reply.ServerReason

/-- The completion reporter: serializes the client message (lib.go
lines 234-248) and runs the completion call on the transport's response
to the posted document. -/
def runComplete (m : completeMsg) (transport : JVal → Except String Body) :
    JVal × Except String Unit :=
  let blob := marshalCompleteMsg m
  (blob, complete (transport blob))

example : performRequest [HResp.status 200 none] = (1, Except.ok none) := by rfl

example : performRequest [HResp.redirect, HResp.status 400 none] = (2, Except.ok none) := by rfl

example : initiateUpload (Except.ok (some (JVal.obj []))) =
    Except.ok ⟨"", false, "", "", "", ""⟩ := by rfl

/-! Session orchestrator, embedding Uploader.Upload (lib.go lines
78-171).  The external collaborators named out of scope by the design
(file system, appc manifest extraction, name parsing, meta discovery)
and the per-call transport outcomes are supplied by an environment
record; the session produces the trace of network operations it
performed together with its final error, if any. -/

/-- One network operation of a session: the meta-discovery lookup, the
initiation POST, the PUT of one named part, or the POST of a completion
message. -/
inductive Event where
  | discoverReq : Event
  | initiateReq : Event
  | putPart : String → Event
  | postCompletion : completeMsg → Event
deriving Repr, DecidableEq

/-- Environment of one session: outcomes of the collaborator calls and
of each transport-level operation, keyed as Upload consumes them.  The
extLit field is the fixed image-extension literal (schema.ACIExtension
with its leading dot trimmed, lib.go line 117), which lives in the
external appc dependency. -/
structure Env where
  openAci : Except String Unit
  openAsc : Except String Unit
  manifestFromImage : Except String Labels
  appFromString : Except String Labels
  seekStart : Except String Unit
  marshalManifest : Except String Unit
  extLit : String
  discoverEndpoints : Except String (List String)
  initiate : Except String initiateDetails
  uploadPart : String → Except String Unit
  reportCompletion : completeMsg → Except String Unit

/-- The for-loop of lib.go lines 149-163 followed by the success report
of line 165: parts are attempted in list order; the first failure posts
a failure completion whose reason names the part and the underlying
error, combining a failed report into the surfaced error; when every
part succeeded a success completion is posted and its error, if any, is
surfaced. -/
def partsLoop (env : Env) : List String → List Event × Option String
  | [] =>
    match env.reportCompletion ⟨true, "", ""⟩ with
    | Except.error e => ([Event.postCompletion ⟨true, "", ""⟩], some e)
    | Except.ok _ => ([Event.postCompletion ⟨true, "", ""⟩], none)
  | label :: rest =>
    match env.uploadPart label with
    | Except.error e =>
      let reason := "error uploading " ++ label ++ ": " ++ e
      match env.reportCompletion ⟨false, reason, ""⟩ with
      | Except.error re =>
        ([Event.putPart label, Event.postCompletion ⟨false, reason, ""⟩],
         some ("error uploading " ++ label ++ " and error reporting failure: " ++
               e ++ ", " ++ re))
      | Except.ok _ =>
        ([Event.putPart label, Event.postCompletion ⟨false, reason, ""⟩], some reason)
    | Except.ok _ =>
      let r := partsLoop env rest
      (Event.putPart label :: r.1, r.2)

/-- The fixed part order of lib.go lines 149-153. -/
def partOrder : List String := ["manifest", "signature", "ACI"]

/-- Session orchestrator Uploader.Upload (lib.go lines 78-171): open
both sources, extract the manifest, parse the target name, resolve the
labels, rewind and re-marshal, discover the endpoint (taking the first,
failing when none), initiate, then run the part loop and completion
reporting. -/
def Upload (env : Env) : List Event × Option String :=
  match env.openAci with
  | Except.error e => ([], some e)
  | Except.ok _ =>
  match env.openAsc with
  | Except.error e => ([], some e)
  | Except.ok _ =>
  match env.manifestFromImage with
  | Except.error e => ([], some e)
  | Except.ok man =>
  match env.appFromString with
  | Except.error e => ([], some e)
  | Except.ok app =>
  match resolveLabels env.extLit app man with
  | Except.error e => ([], some e)
  | Except.ok _ =>
  match env.seekStart with
  | Except.error e => ([], some e)
  | Except.ok _ =>
  match env.marshalManifest with
  | Except.error e => ([], some e)
  | Except.ok _ =>
  match env.discoverEndpoints with
  | Except.error e => ([Event.discoverReq], some e)
  | Except.ok [] => ([Event.discoverReq], some "no endpoints discovered")
  | Except.ok (_ :: _) =>
  match env.initiate with
  | Except.error e => ([Event.discoverReq, Event.initiateReq], some e)
  | Except.ok _ =>
    let r := partsLoop env partOrder
    (Event.discoverReq :: Event.initiateReq :: r.1, r.2)

/-- Success test for an Except value. -/
def isOkE {α : Type} (x : Except String α) : Bool :=
  match x with
  | Except.ok _ => true
  | Except.error _ => false

/-- A session reaches a successful initiation when every step of
Upload up to and including the initiation POST succeeds. -/
def initiationReached (env : Env) : Bool :=
  isOkE env.openAci && isOkE env.openAsc &&
  (match env.manifestFromImage, env.appFromString with
   | Except.ok man, Except.ok app => isOkE (resolveLabels env.extLit app man)
   | _, _ => false) &&
  isOkE env.seekStart && isOkE env.marshalManifest &&
  (match env.discoverEndpoints with
   | Except.ok (_ :: _) => true
   | _ => false) &&
  isOkE env.initiate

/-- All three part uploads of the session succeed. -/
def partsOkB (env : Env) : Bool :=
  isOkE (env.uploadPart "manifest") && isOkE (env.uploadPart "signature") &&
  isOkE (env.uploadPart "ACI")

/-- Success flags of the completion messages posted in a trace. -/
def completionFlags (evs : List Event) : List Bool :=
  evs.filterMap (fun e =>
    match e with
    | Event.postCompletion m => some m.Success
    | _ => none)

/-- Completion messages posted in a trace. -/
def completionMsgs (evs : List Event) : List completeMsg :=
  evs.filterMap (fun e =>
    match e with
    | Event.postCompletion m => some m
    | _ => none)

/-- Labels of the part PUTs in a trace, in order. -/
def putLabels (evs : List Event) : List String :=
  evs.filterMap (fun e =>
    match e with
    | Event.putPart l => some l
    | _ => none)

/-- An all-green sample environment for concrete evaluations. -/
def envOk : Env :=
  { openAci := Except.ok ()
    openAsc := Except.ok ()
    manifestFromImage := Except.ok [("arch", "amd64"), ("os", "linux")]
    appFromString := Except.ok []
    seekStart := Except.ok ()
    marshalManifest := Except.ok ()
    extLit := "aci"
    discoverEndpoints := Except.ok ["https://example.com/init"]
    initiate := Except.ok ⟨"0.0.1", true, "m", "s", "a", "c"⟩
    uploadPart := fun _ => Except.ok ()
    reportCompletion := fun _ => Except.ok () }

example : Upload envOk =
    ([Event.discoverReq, Event.initiateReq, Event.putPart "manifest",
      Event.putPart "signature", Event.putPart "ACI",
      Event.postCompletion ⟨true, "", ""⟩], none) := by rfl

example : initiationReached envOk = true := by rfl

example :
    Upload { envOk with uploadPart := fun l =>
               if l = "signature" then Except.error "boom" else Except.ok () } =
    ([Event.discoverReq, Event.initiateReq, Event.putPart "manifest",
      Event.putPart "signature",
      Event.postCompletion ⟨false, "error uploading signature: boom", ""⟩],
     some "error uploading signature: boom") := by rfl

/-! Specialized lookup/upsert facts for the three label names. -/

theorem lookup_set_arch_os (ls : Labels) (v : String) :
    lookupLabel (setLabel ls archLabelName v) osLabelName = lookupLabel ls osLabelName :=
  lookupLabel_setLabel_ne _ _ _ _ (by decide)

theorem lookup_set_arch_ext (ls : Labels) (v : String) :
    lookupLabel (setLabel ls archLabelName v) extLabelName = lookupLabel ls extLabelName :=
  lookupLabel_setLabel_ne _ _ _ _ (by decide)

theorem lookup_set_os_arch (ls : Labels) (v : String) :
    lookupLabel (setLabel ls osLabelName v) archLabelName = lookupLabel ls archLabelName :=
  lookupLabel_setLabel_ne _ _ _ _ (by decide)

theorem lookup_set_os_ext (ls : Labels) (v : String) :
    lookupLabel (setLabel ls osLabelName v) extLabelName = lookupLabel ls extLabelName :=
  lookupLabel_setLabel_ne _ _ _ _ (by decide)

theorem lookup_set_ext_arch (ls : Labels) (v : String) :
    lookupLabel (setLabel ls extLabelName v) archLabelName = lookupLabel ls archLabelName :=
  lookupLabel_setLabel_ne _ _ _ _ (by decide)

theorem lookup_set_ext_os (ls : Labels) (v : String) :
    lookupLabel (setLabel ls extLabelName v) osLabelName = lookupLabel ls osLabelName :=
  lookupLabel_setLabel_ne _ _ _ _ (by decide)

theorem lookupLabel_preserved (ls : Labels) (k w k' v : String)
    (hk : lookupLabel ls k = none) (h : lookupLabel ls k' = some v) :
    lookupLabel (setLabel ls k w) k' = some v := by
  have hne : k' ≠ k := by
    intro he
    rw [he, hk] at h
    exact Option.noConfusion h
  rw [lookupLabel_setLabel_ne _ _ _ _ hne]
  exact h

/-! Behavior of the three label-resolution blocks. -/

theorem resolveArchStep_err (app man : Labels)
    (ha : lookupLabel app archLabelName = none)
    (hm : lookupLabel man archLabelName = none) :
    resolveArchStep app man =
      Except.error ("manifest is missing label: " ++ quoteName archLabelName) := by
  simp [resolveArchStep, ha, hm]

theorem resolveOsStep_err (l1 man : Labels)
    (ha : lookupLabel l1 osLabelName = none)
    (hm : lookupLabel man osLabelName = none) :
    resolveOsStep l1 man =
      Except.error ("manifest is missing label: " ++ quoteName osLabelName) := by
  simp [resolveOsStep, ha, hm]

theorem resolveArchStep_ok_of (app man : Labels)
    (h : (lookupLabel app archLabelName).isSome ∨ (lookupLabel man archLabelName).isSome) :
    ∃ l1, resolveArchStep app man = Except.ok l1 := by
  rcases ha : lookupLabel app archLabelName with _ | va
  · rcases hma : lookupLabel man archLabelName with _ | vma
    · rw [ha, hma] at h
      simp at h
    · exact ⟨setLabel app archLabelName vma, by simp [resolveArchStep, ha, hma]⟩
  · exact ⟨app, by simp [resolveArchStep, ha]⟩

theorem resolveOsStep_ok_of (l1 man : Labels)
    (h : (lookupLabel l1 osLabelName).isSome ∨ (lookupLabel man osLabelName).isSome) :
    ∃ l2, resolveOsStep l1 man = Except.ok l2 := by
  rcases ha : lookupLabel l1 osLabelName with _ | va
  · rcases hma : lookupLabel man osLabelName with _ | vma
    · rw [ha, hma] at h
      simp at h
    · exact ⟨setLabel l1 osLabelName vma, by simp [resolveOsStep, ha, hma]⟩
  · exact ⟨l1, by simp [resolveOsStep, ha]⟩

theorem resolveArchStep_props (app man l1 : Labels)
    (h : resolveArchStep app man = Except.ok l1) :
    (lookupLabel l1 archLabelName).isSome = true ∧
    lookupLabel l1 osLabelName = lookupLabel app osLabelName ∧
    lookupLabel l1 extLabelName = lookupLabel app extLabelName ∧
    (∀ k v, lookupLabel app k = some v → lookupLabel l1 k = some v) ∧
    (lookupLabel app archLabelName = none →
       ∀ v, lookupLabel man archLabelName = some v →
         lookupLabel l1 archLabelName = some v) := by
  rcases ha : lookupLabel app archLabelName with _ | va
  · rcases hma : lookupLabel man archLabelName with _ | vma
    · simp [resolveArchStep, ha, hma] at h
    · simp [resolveArchStep, ha, hma] at h
      subst h
      refine ⟨?_, ?_, ?_, ?_, ?_⟩
      · rw [lookupLabel_setLabel_same]
        rfl
      · exact lookup_set_arch_os app vma
      · exact lookup_set_arch_ext app vma
      · exact fun k v hv => lookupLabel_preserved app archLabelName vma k v ha hv
      · intro _ v hv
        cases hv
        rw [lookupLabel_setLabel_same]
  · simp [resolveArchStep, ha] at h
    subst h
    refine ⟨by rw [ha]; rfl, rfl, rfl, fun k v hv => hv, ?_⟩
    intro hnone
    exact Option.noConfusion hnone

theorem resolveOsStep_props (l1 man l2 : Labels)
    (h : resolveOsStep l1 man = Except.ok l2) :
    (lookupLabel l2 osLabelName).isSome = true ∧
    lookupLabel l2 archLabelName = lookupLabel l1 archLabelName ∧
    lookupLabel l2 extLabelName = lookupLabel l1 extLabelName ∧
    (∀ k v, lookupLabel l1 k = some v → lookupLabel l2 k = some v) ∧
    (lookupLabel l1 osLabelName = none →
       ∀ v, lookupLabel man osLabelName = some v →
         lookupLabel l2 osLabelName = some v) := by
  rcases ha : lookupLabel l1 osLabelName with _ | va
  · rcases hma : lookupLabel man osLabelName with _ | vma
    · simp [resolveOsStep, ha, hma] at h
    · simp [resolveOsStep, ha, hma] at h
      subst h
      refine ⟨?_, ?_, ?_, ?_, ?_⟩
      · rw [lookupLabel_setLabel_same]
        rfl
      · exact lookup_set_os_arch l1 vma
      · exact lookup_set_os_ext l1 vma
      · exact fun k v hv => lookupLabel_preserved l1 osLabelName vma k v ha hv
      · intro _ v hv
        cases hv
        rw [lookupLabel_setLabel_same]
  · simp [resolveOsStep, ha] at h
    subst h
    refine ⟨by rw [ha]; rfl, rfl, rfl, fun k v hv => hv, ?_⟩
    intro hnone
    exact Option.noConfusion hnone

theorem resolveExtStep_props (ext : String) (l2 : Labels) :
    (lookupLabel (resolveExtStep ext l2) extLabelName).isSome = true ∧
    lookupLabel (resolveExtStep ext l2) archLabelName = lookupLabel l2 archLabelName ∧
    lookupLabel (resolveExtStep ext l2) osLabelName = lookupLabel l2 osLabelName ∧
    (∀ k v, lookupLabel l2 k = some v → lookupLabel (resolveExtStep ext l2) k = some v) ∧
    (lookupLabel l2 extLabelName = none →
       lookupLabel (resolveExtStep ext l2) extLabelName = some ext) := by
  rcases he : lookupLabel l2 extLabelName with _ | ve
  · refine ⟨?_, ?_, ?_, ?_, ?_⟩
    · simp [resolveExtStep, he, lookupLabel_setLabel_same]
    · simp [resolveExtStep, he, lookup_set_ext_arch]
    · simp [resolveExtStep, he, lookup_set_ext_os]
    · intro k v hv
      simp only [resolveExtStep, he]
      exact lookupLabel_preserved l2 extLabelName ext k v he hv
    · intro _
      simp [resolveExtStep, he, lookupLabel_setLabel_same]
  · refine ⟨?_, ?_, ?_, ?_, ?_⟩
    · simp [resolveExtStep, he]
    · simp [resolveExtStep, he]
    · simp [resolveExtStep, he]
    · intro k v hv
      simpa [resolveExtStep, he] using hv
    · intro hnone
      exact Option.noConfusion hnone

theorem resolveLabels_ok_elim (ext : String) (app man res : Labels)
    (h : resolveLabels ext app man = Except.ok res) :
    ∃ l1 l2, resolveArchStep app man = Except.ok l1 ∧
      resolveOsStep l1 man = Except.ok l2 ∧ res = resolveExtStep ext l2 := by
  rcases h1 : resolveArchStep app man with e | l1
  · simp [resolveLabels, h1] at h
  · rcases h2 : resolveOsStep l1 man with e | l2
    · simp [resolveLabels, h1, h2] at h
    · simp [resolveLabels, h1, h2] at h
      exact ⟨l1, l2, rfl, h2, h.symm⟩

/-- C4: for arch and os the resolver copies a key absent from the
target name's labels from the manifest and fails naming the key when
both lack it; an absent ext key is set to the fixed image-extension
literal, a step with no failure path; on success the updated mapping
carries arch, os and ext, and every preexisting binding of the target
name is kept (the in-place mutation of the Go map is modeled by
returning the updated mapping, which Upload threads onward). -/
theorem label_resolver_c4 (ext : String) (app man : Labels) :
    (∀ v res, lookupLabel app archLabelName = none →
       lookupLabel man archLabelName = some v →
       resolveLabels ext app man = Except.ok res →
       lookupLabel res archLabelName = some v) ∧
    (lookupLabel app archLabelName = none → lookupLabel man archLabelName = none →
       resolveLabels ext app man =
         Except.error ("manifest is missing label: " ++ quoteName archLabelName)) ∧
    (∀ v res, lookupLabel app osLabelName = none →
       lookupLabel man osLabelName = some v →
       resolveLabels ext app man = Except.ok res →
       lookupLabel res osLabelName = some v) ∧
    (((lookupLabel app archLabelName).isSome = true ∨
        (lookupLabel man archLabelName).isSome = true) →
       lookupLabel app osLabelName = none → lookupLabel man osLabelName = none →
       resolveLabels ext app man =
         Except.error ("manifest is missing label: " ++ quoteName osLabelName)) ∧
    (((lookupLabel app archLabelName).isSome = true ∨
        (lookupLabel man archLabelName).isSome = true) →
       ((lookupLabel app osLabelName).isSome = true ∨
        (lookupLabel man osLabelName).isSome = true) →
       ∃ res, resolveLabels ext app man = Except.ok res) ∧
    (∀ res, resolveLabels ext app man = Except.ok res →
       (lookupLabel res archLabelName).isSome = true ∧
       (lookupLabel res osLabelName).isSome = true ∧
       (lookupLabel res extLabelName).isSome = true ∧
       (lookupLabel app extLabelName = none →
          lookupLabel res extLabelName = some ext) ∧
       (∀ k v, lookupLabel app k = some v → lookupLabel res k = some v)) := by
  refine ⟨?_, ?_, ?_, ?_, ?_, ?_⟩
  · intro v res ha hm hr
    obtain ⟨l1, l2, h1, h2, hres⟩ := resolveLabels_ok_elim ext app man res hr
    obtain ⟨_, _, _, _, hcopy1⟩ := resolveArchStep_props app man l1 h1
    have hl1 : lookupLabel l1 archLabelName = some v := hcopy1 ha v hm
    obtain ⟨_, harch2, _, _, _⟩ := resolveOsStep_props l1 man l2 h2
    obtain ⟨_, harch3, _, _, _⟩ := resolveExtStep_props ext l2
    rw [hres, harch3, harch2, hl1]
  · intro ha hm
    simp [resolveLabels, resolveArchStep_err app man ha hm]
  · intro v res ho hmo hr
    obtain ⟨l1, l2, h1, h2, hres⟩ := resolveLabels_ok_elim ext app man res hr
    obtain ⟨_, hos1, _, _, _⟩ := resolveArchStep_props app man l1 h1
    obtain ⟨_, _, _, _, hcopy2⟩ := resolveOsStep_props l1 man l2 h2
    have hl2 : lookupLabel l2 osLabelName = some v := hcopy2 (hos1.trans ho) v hmo
    obtain ⟨_, _, hos3, _, _⟩ := resolveExtStep_props ext l2
    rw [hres, hos3, hl2]
  · intro harch ho hmo
    obtain ⟨l1, h1⟩ := resolveArchStep_ok_of app man harch
    obtain ⟨_, hos1, _, _, _⟩ := resolveArchStep_props app man l1 h1
    simp [resolveLabels, h1, resolveOsStep_err l1 man (hos1.trans ho) hmo]
  · intro harch hos
    obtain ⟨l1, h1⟩ := resolveArchStep_ok_of app man harch
    obtain ⟨_, hos1, _, _, _⟩ := resolveArchStep_props app man l1 h1
    have hos' : (lookupLabel l1 osLabelName).isSome = true ∨
        (lookupLabel man osLabelName).isSome = true := by
      rcases hos with h | h
      · exact Or.inl (by rw [hos1]; exact h)
      · exact Or.inr h
    obtain ⟨l2, h2⟩ := resolveOsStep_ok_of l1 man hos'
    exact ⟨resolveExtStep ext l2, by simp [resolveLabels, h1, h2]⟩
  · intro res hr
    obtain ⟨l1, l2, h1, h2, hres⟩ := resolveLabels_ok_elim ext app man res hr
    obtain ⟨harch1, hos1, hext1, hpres1, _⟩ := resolveArchStep_props app man l1 h1
    obtain ⟨hos2, harch2, hext2, hpres2, _⟩ := resolveOsStep_props l1 man l2 h2
    obtain ⟨hext3, harch3, hos3, hpres3, hdef3⟩ := resolveExtStep_props ext l2
    subst hres
    refine ⟨?_, ?_, hext3, ?_, ?_⟩
    · rw [harch3, harch2]
      exact harch1
    · rw [hos3]
      exact hos2
    · intro hne
      apply hdef3
      rw [hext2, hext1]
      exact hne
    · intro k v hv
      exact hpres3 k v (hpres2 k v (hpres1 k v hv))

/-- Witness for label_resolver_c4: a target name lacking arch gets it
copied from the manifest. -/
theorem label_resolver_c4_witness :
    lookupLabel [("os", "linux")] archLabelName = none ∧
    lookupLabel [("arch", "amd64")] archLabelName = some "amd64" ∧
    resolveLabels "aci" [("os", "linux")] [("arch", "amd64")] =
      Except.ok [("os", "linux"), ("arch", "amd64"), ("ext", "aci")] ∧
    lookupLabel [("os", "linux"), ("arch", "amd64"), ("ext", "aci")] archLabelName =
      some "amd64" :=
  ⟨rfl, rfl, rfl,
   (label_resolver_c4 "aci" [("os", "linux")] [("arch", "amd64")]).1 "amd64"
     [("os", "linux"), ("arch", "amd64"), ("ext", "aci")] rfl rfl rfl⟩

/-- C5: once both sources are open and the manifest and target name
are parsed, a session whose target name and manifest both lack arch (or
both lack os, with arch resolvable) fails with the error naming that
key, and its trace of network events is empty: no discovery,
initiation, upload, or completion request is made. -/
theorem label_precondition_c5 (env : Env) :
    (∀ man app, env.openAci = Except.ok () → env.openAsc = Except.ok () →
       env.manifestFromImage = Except.ok man → env.appFromString = Except.ok app →
       lookupLabel app archLabelName = none → lookupLabel man archLabelName = none →
       Upload env =
         ([], some ("manifest is missing label: " ++ quoteName archLabelName))) ∧
    (∀ man app, env.openAci = Except.ok () → env.openAsc = Except.ok () →
       env.manifestFromImage = Except.ok man → env.appFromString = Except.ok app →
       ((lookupLabel app archLabelName).isSome = true ∨
        (lookupLabel man archLabelName).isSome = true) →
       lookupLabel app osLabelName = none → lookupLabel man osLabelName = none →
       Upload env =
         ([], some ("manifest is missing label: " ++ quoteName osLabelName))) := by
  constructor
  · intro man app h1 h2 h3 h4 ha hm
    have herr : resolveLabels env.extLit app man =
        Except.error ("manifest is missing label: " ++ quoteName archLabelName) := by
      simp [resolveLabels, resolveArchStep_err app man ha hm]
    simp [Upload, h1, h2, h3, h4, herr]
  · intro man app h1 h2 h3 h4 harch ho hmo
    obtain ⟨l1, hl1⟩ := resolveArchStep_ok_of app man harch
    obtain ⟨_, hos1, _, _, _⟩ := resolveArchStep_props app man l1 hl1
    have herr : resolveLabels env.extLit app man =
        Except.error ("manifest is missing label: " ++ quoteName osLabelName) := by
      simp [resolveLabels, hl1, resolveOsStep_err l1 man (hos1.trans ho) hmo]
    simp [Upload, h1, h2, h3, h4, herr]

/-- Environment whose target name and manifest both lack arch. -/
def envNoArch : Env :=
  { envOk with
      manifestFromImage := Except.ok [("os", "linux")]
      appFromString := Except.ok [] }

/-- Witness for label_precondition_c5: the arch-less session fails
naming arch with an empty network trace. -/
theorem label_precondition_c5_witness :
    envNoArch.openAci = Except.ok () ∧
    envNoArch.manifestFromImage = Except.ok [("os", "linux")] ∧
    envNoArch.appFromString = Except.ok [] ∧
    lookupLabel [] archLabelName = none ∧
    lookupLabel [("os", "linux")] archLabelName = none ∧
    Upload envNoArch = ([], some "manifest is missing label: \"arch\"") :=
  ⟨rfl, rfl, rfl, rfl, rfl,
   (label_precondition_c5 envNoArch).1 [("os", "linux")] [] rfl rfl rfl rfl rfl rfl⟩

/-- C6: the transport hands the readable response body to the caller
without error exactly for status codes 200 and 400; every other code
yields the error carrying the numeric code, with the response body
closed before returning. -/
theorem status_classification_c6 (code : Nat) (body : Body) :
    (code = 200 ∨ code = 400 →
       classifyStatus code body = (Except.ok body, false)) ∧
    (code ≠ 200 → code ≠ 400 →
       classifyStatus code body =
         (Except.error ("bad HTTP status code: " ++ toString code), true)) := by
  constructor
  · rintro (h | h) <;> simp [classifyStatus, h]
  · intro h1 h2
    simp [classifyStatus, h1, h2]

/-- Witness for status_classification_c6 at codes 200 and 500. -/
theorem status_classification_c6_witness :
    ((200 : Nat) = 200 ∨ (200 : Nat) = 400) ∧
    classifyStatus 200 none = (Except.ok none, false) ∧
    (500 : Nat) ≠ 200 ∧ (500 : Nat) ≠ 400 ∧
    classifyStatus 500 none =
      (Except.error ("bad HTTP status code: " ++ toString (500 : Nat)), true) :=
  ⟨Or.inl rfl, (status_classification_c6 200 none).1 (Or.inl rfl),
   by decide, by decide,
   (status_classification_c6 500 none).2 (by decide) (by decide)⟩

theorem clientDo_replicate (k : Nat) :
    ∀ (sent : Nat) (rest : List HResp), sent + k ≤ 9 →
    clientDo (List.replicate k HResp.redirect ++ rest) sent =
      ((clientDo rest (sent + k)).1 + k, (clientDo rest (sent + k)).2) := by
  induction k with
  | zero =>
    intro sent rest _
    simp
  | succ n ih =>
    intro sent rest h
    have hcr : checkRedirect (sent + 1) = Except.ok () := by
      unfold checkRedirect
      rw [if_neg (by omega)]
    rw [List.replicate_succ]
    simp only [List.cons_append, List.append_eq, clientDo, hcr]
    rw [ih (sent + 1) rest (by omega)]
    have harith : sent + 1 + n = sent + (n + 1) := by omega
    rw [harith]
    simp [Nat.add_assoc]

/-- C2: the auth-injection hook runs on the initial request and on
every followed redirect target; ten consecutive redirect responses make
the request fail with the too-many-redirects error after ten hook
invocations, while at most nine redirects followed by a terminal
response succeed with one hook invocation per request (ten in the
nine-redirect, then 200 case). -/
theorem redirect_ceiling_c2 :
    (∀ rest : List HResp,
       performRequest (List.replicate 10 HResp.redirect ++ rest) =
         (10, Except.error "too many redirects")) ∧
    (∀ (k code : Nat) (body : Body), k ≤ 9 →
       performRequest (List.replicate k HResp.redirect ++ [HResp.status code body]) =
         (k + 1, (classifyStatus code body).1)) ∧
    (∀ body : Body,
       performRequest (List.replicate 9 HResp.redirect ++ [HResp.status 200 body]) =
         (10, Except.ok body)) := by
  refine ⟨fun rest => rfl, ?_, ?_⟩
  · intro k code body hk
    unfold performRequest
    rw [clientDo_replicate k 0 [HResp.status code body] (by omega)]
    simp [clientDo]
  · intro body
    rfl

/-- Witness for redirect_ceiling_c2: nine redirects then a 200 give a
success after ten hook invocations. -/
theorem redirect_ceiling_c2_witness :
    (9 : Nat) ≤ 9 ∧
    performRequest (List.replicate 9 HResp.redirect ++ [HResp.status 200 none]) =
      (9 + 1, (classifyStatus 200 none).1) :=
  ⟨by decide, redirect_ceiling_c2.2.1 9 200 none (by decide)⟩

/-- The body-wrapping head of performRequest (lib.go lines 276-282)
composed with genProgressBar's stat (lines 324-328, 355-360): the
source is wrapped in the metered progress reader exactly when progress
drawing is requested, the body is an os.File, and the uploader's Debug
flag is set; the wrapped reader carries the stat size of the file, and
a stat failure fails the request before any network activity.  The
result is the wrapped reader's size, or none when the body is passed
through unwrapped. -/
def setupBody (draw isFile debug : Bool) (stat : Except String Int) :
    Except String (Option Int) :=
  if draw && isFile && debug then
    match stat with
    | Except.error e => Except.error e
    | Except.ok size => Except.ok (some size)
  else Except.ok none

/-- C9 counterexample: with progress drawing requested and a
file-backed source but the Debug flag clear, the source is not wrapped
(lib.go line 276 also tests u.Debug), yet with Debug set and the same
other inputs it is wrapped — so wrapping does not depend only on the
progress flag and on the source being file-backed. -/
theorem progress_wrap_c9_counterexample :
    setupBody true true false (Except.ok 100) = Except.ok none ∧
    setupBody true true true (Except.ok 100) = Except.ok (some 100) := by
  exact ⟨rfl, rfl⟩

/-- C9 (amended): the source is wrapped in the metered progress reader
(sized by the file's stat, a stat failure failing the part upload)
exactly when the progress flag is set, the source is file-backed, and
the uploader's Debug flag is set; in every other combination the source
is sent unwrapped. -/
theorem progress_wrap_c9 (draw isFile debug : Bool) (stat : Except String Int) :
    ((draw && isFile && debug) = true →
       (∀ sz, stat = Except.ok sz →
          setupBody draw isFile debug stat = Except.ok (some sz)) ∧
       (∀ e, stat = Except.error e →
          setupBody draw isFile debug stat = Except.error e)) ∧
    ((draw && isFile && debug) = false →
       setupBody draw isFile debug stat = Except.ok none) := by
  constructor
  · intro h
    constructor <;> intro x hx <;> simp [setupBody, h, hx]
  · intro h
    simp [setupBody, h]

/-- Witness for progress_wrap_c9: drawing, file-backed, Debug set, and
a 5-byte file produce a wrapped reader of size 5. -/
theorem progress_wrap_c9_witness :
    (true && true && true) = true ∧
    (Except.ok 5 : Except String Int) = Except.ok 5 ∧
    setupBody true true true (Except.ok 5) = Except.ok (some 5) :=
  ⟨rfl, rfl, ((progress_wrap_c9 true true true (Except.ok 5)).1 rfl).1 5 rfl⟩

/-- C10 counterexample: a 400 response whose body is the valid JSON
document consisting of an empty array makes initiation fail with a
decode error, refuting that initiation succeeds for any valid JSON body
regardless of shape. -/
theorem initiation_decode_c10_counterexample :
    initiateUpload (performRequest [HResp.status 400 (some (JVal.arr []))]).2 =
      Except.error "json: cannot unmarshal non-object value into initiateDetails" := by
  rfl

/-- C10 (amended): initiation succeeds for any 200 or 400 response
whose body is a valid JSON object whose recognized fields, when present
and non-null, carry the declared types; absent or unrecognized fields
leave the decoded details at zero values (the empty object yields the
all-zero details, so the session proceeds with empty part and
completion URLs), and no validation of the returned URL strings is
performed.  In particular a 400 response carrying such a JSON error
body is accepted as a successful initiation. -/
theorem initiation_decode_c10 (code : Nat) (fields : List (String × JVal))
    (ver mu su au cu : String) (mp : Bool)
    (hc : code = 200 ∨ code = 400)
    (h1 : jsonStrField fields "aci_push_version" = Except.ok ver)
    (h2 : jsonBoolField fields "multipart" = Except.ok mp)
    (h3 : jsonStrField fields "upload_manifest_url" = Except.ok mu)
    (h4 : jsonStrField fields "upload_signature_url" = Except.ok su)
    (h5 : jsonStrField fields "upload_aci_url" = Except.ok au)
    (h6 : jsonStrField fields "completed_url" = Except.ok cu) :
    initiateUpload (performRequest [HResp.status code (some (JVal.obj fields))]).2 =
      Except.ok ⟨ver, mp, mu, su, au, cu⟩ ∧
    initiateUpload (performRequest [HResp.status code (some (JVal.obj []))]).2 =
      Except.ok ⟨"", false, "", "", "", ""⟩ := by
  have hperf : ∀ b : Body, (performRequest [HResp.status code b]).2 = Except.ok b := by
    intro b
    rcases hc with h | h <;> subst h <;> rfl
  constructor
  · rw [hperf]
    simp [initiateUpload, unmarshalInitiateDetails, h1, h2, h3, h4, h5, h6]
  · rw [hperf]
    rfl

/-- Witness for initiation_decode_c10: a 400 response with a JSON
error-object body is accepted and decodes to all-zero details. -/
theorem initiation_decode_c10_witness :
    ((400 : Nat) = 200 ∨ (400 : Nat) = 400) ∧
    jsonStrField [("error", JVal.str "bad request")] "aci_push_version" = Except.ok "" ∧
    initiateUpload
        (performRequest
          [HResp.status 400 (some (JVal.obj [("error", JVal.str "bad request")]))]).2 =
      Except.ok ⟨"", false, "", "", "", ""⟩ :=
  ⟨Or.inr rfl, rfl,
   (initiation_decode_c10 400 [("error", JVal.str "bad request")] "" "" "" "" "" false
     (Or.inr rfl) rfl rfl rfl rfl rfl rfl).1⟩

/-- C8: the completion reporter posts exactly the JSON serialization of
the client's message; a transport failure propagates as such, a body
that fails to decode yields a decode error, and a decoded reply whose
success field is false fails carrying the server-supplied reason (so
the server can veto even a client-reported success), while a reply with
success true succeeds. -/
theorem completion_reporter_c8 (m : completeMsg)
    (transport : JVal → Except String Body) :
    (runComplete m transport).1 = marshalCompleteMsg m ∧
    (∀ e, transport (marshalCompleteMsg m) = Except.error e →
       (runComplete m transport).2 = Except.error e) ∧
    (transport (marshalCompleteMsg m) = Except.ok none →
       (runComplete m transport).2 = Except.error "unexpected end of JSON input") ∧
    (∀ v e, transport (marshalCompleteMsg m) = Except.ok (some v) →
       unmarshalCompleteMsg v = Except.error e →
       (runComplete m transport).2 = Except.error e) ∧
    (∀ v reply, transport (marshalCompleteMsg m) = Except.ok (some v) →
       unmarshalCompleteMsg v = Except.ok reply →
       (reply.Success = false →
          (runComplete m transport).2 = Except.error reply.ServerReason) ∧
       (reply.Success = true → (runComplete m transport).2 = Except.ok ())) := by
  refine ⟨rfl, ?_, ?_, ?_, ?_⟩
  · intro e he
    simp [runComplete, complete, he]
  · intro he
    simp [runComplete, complete, he]
  · intro v e hv he
    simp [runComplete, complete, hv, he]
  · intro v reply hv hrep
    constructor <;> intro hs <;> simp [runComplete, complete, hv, hrep, hs]

/-- A server acknowledgment that rejects the report with a reason. -/
def vetoTransport : JVal → Except String Body := fun _ =>
  Except.ok (some (JVal.obj
    [("success", JVal.boolVal false), ("server_reason", JVal.str "quota exceeded")]))

/-- Witness for completion_reporter_c8: a client-success report vetoed
by the server surfaces the server-supplied reason. -/
theorem completion_reporter_c8_witness :
    vetoTransport (marshalCompleteMsg ⟨true, "", ""⟩) =
      Except.ok (some (JVal.obj
        [("success", JVal.boolVal false), ("server_reason", JVal.str "quota exceeded")])) ∧
    unmarshalCompleteMsg (JVal.obj
        [("success", JVal.boolVal false), ("server_reason", JVal.str "quota exceeded")]) =
      Except.ok ⟨false, "", "quota exceeded"⟩ ∧
    (runComplete ⟨true, "", ""⟩ vetoTransport).2 = Except.error "quota exceeded" :=
  ⟨rfl, rfl,
   ((completion_reporter_c8 ⟨true, "", ""⟩ vetoTransport).2.2.2.2
       (JVal.obj
         [("success", JVal.boolVal false), ("server_reason", JVal.str "quota exceeded")])
       ⟨false, "", "quota exceeded"⟩ rfl rfl).1 rfl⟩

theorem isOkE_elim {α : Type} (x : Except String α) (h : isOkE x = true) :
    ∃ a, x = Except.ok a := by
  cases x with
  | ok a => exact ⟨a, rfl⟩
  | error e => simp [isOkE] at h

/-- A session that passes every step up to initiation runs the part
loop after the discovery and initiation calls. -/
theorem upload_reached_eq (env : Env) (h : initiationReached env = true) :
    Upload env =
      (Event.discoverReq :: Event.initiateReq :: (partsLoop env partOrder).1,
       (partsLoop env partOrder).2) := by
  unfold initiationReached at h
  simp only [Bool.and_eq_true] at h
  obtain ⟨⟨⟨⟨⟨⟨h1, h2⟩, h3⟩, h4⟩, h5⟩, h6⟩, h7⟩ := h
  obtain ⟨⟨⟩, hAci⟩ := isOkE_elim _ h1
  obtain ⟨⟨⟩, hAsc⟩ := isOkE_elim _ h2
  rcases hman : env.manifestFromImage with e | man <;> rw [hman] at h3
  · simp at h3
  rcases happ : env.appFromString with e | app <;> rw [happ] at h3
  · simp at h3
  obtain ⟨l, hl⟩ := isOkE_elim _ h3
  obtain ⟨⟨⟩, hseek⟩ := isOkE_elim _ h4
  obtain ⟨⟨⟩, hmar⟩ := isOkE_elim _ h5
  rcases hd : env.discoverEndpoints with e | eps <;> rw [hd] at h6
  · simp at h6
  rcases eps with _ | ⟨e0, rest⟩
  · simp at h6
  obtain ⟨deets, hInit⟩ := isOkE_elim _ h7
  simp [Upload, hAci, hAsc, hman, happ, hl, hseek, hmar, hd, hInit]

/-- A session that fails before initiation completes performs at most
the discovery and initiation calls: its trace is one of the three
prefixes with no part PUT and no completion POST. -/
theorem upload_not_reached (env : Env) (h : initiationReached env = false) :
    (Upload env).1 = [] ∨ (Upload env).1 = [Event.discoverReq] ∨
      (Upload env).1 = [Event.discoverReq, Event.initiateReq] := by
  rcases hAci : env.openAci with e | ⟨⟩
  · exact Or.inl (by simp [Upload, hAci])
  rcases hAsc : env.openAsc with e | ⟨⟩
  · exact Or.inl (by simp [Upload, hAci, hAsc])
  rcases hman : env.manifestFromImage with e | man
  · exact Or.inl (by simp [Upload, hAci, hAsc, hman])
  rcases happ : env.appFromString with e | app
  · exact Or.inl (by simp [Upload, hAci, hAsc, hman, happ])
  rcases hl : resolveLabels env.extLit app man with e | l
  · exact Or.inl (by simp [Upload, hAci, hAsc, hman, happ, hl])
  rcases hseek : env.seekStart with e | ⟨⟩
  · exact Or.inl (by simp [Upload, hAci, hAsc, hman, happ, hl, hseek])
  rcases hmar : env.marshalManifest with e | ⟨⟩
  · exact Or.inl (by simp [Upload, hAci, hAsc, hman, happ, hl, hseek, hmar])
  rcases hd : env.discoverEndpoints with e | eps
  · exact Or.inr (Or.inl (by simp [Upload, hAci, hAsc, hman, happ, hl, hseek, hmar, hd]))
  rcases eps with _ | ⟨e0, rest⟩
  · exact Or.inr (Or.inl (by simp [Upload, hAci, hAsc, hman, happ, hl, hseek, hmar, hd]))
  rcases hInit : env.initiate with e | deets
  · exact Or.inr (Or.inr
      (by simp [Upload, hAci, hAsc, hman, happ, hl, hseek, hmar, hd, hInit]))
  exfalso
  have : initiationReached env = true := by
    simp [initiationReached, hAci, hAsc, hman, happ, hl, hseek, hmar, hd, hInit, isOkE]
  rw [this] at h
  exact Bool.noConfusion h

/-! Characterizations of the part loop on the fixed part order. -/

theorem partsLoop_all_ok (env : Env)
    (hm : env.uploadPart "manifest" = Except.ok ())
    (hs : env.uploadPart "signature" = Except.ok ())
    (ha : env.uploadPart "ACI" = Except.ok ()) :
    partsLoop env partOrder =
      ([Event.putPart "manifest", Event.putPart "signature", Event.putPart "ACI",
        Event.postCompletion ⟨true, "", ""⟩],
       match env.reportCompletion ⟨true, "", ""⟩ with
       | Except.error e => some e
       | Except.ok _ => none) := by
  rcases hr : env.reportCompletion ⟨true, "", ""⟩ with re | ⟨⟩ <;>
    simp [partsLoop, partOrder, hm, hs, ha, hr]

theorem partsLoop_fail_manifest (env : Env) (e : String)
    (hm : env.uploadPart "manifest" = Except.error e) :
    partsLoop env partOrder =
      ([Event.putPart "manifest",
        Event.postCompletion ⟨false, "error uploading manifest: " ++ e, ""⟩],
       match env.reportCompletion ⟨false, "error uploading manifest: " ++ e, ""⟩ with
       | Except.error re =>
           some ("error uploading manifest and error reporting failure: " ++
                 e ++ ", " ++ re)
       | Except.ok _ => some ("error uploading manifest: " ++ e)) := by
  rcases hr : env.reportCompletion ⟨false, "error uploading manifest: " ++ e, ""⟩
      with re | ⟨⟩ <;>
    simp [partsLoop, partOrder, hm, hr]

theorem partsLoop_fail_signature (env : Env) (e : String)
    (hm : env.uploadPart "manifest" = Except.ok ())
    (hs : env.uploadPart "signature" = Except.error e) :
    partsLoop env partOrder =
      ([Event.putPart "manifest", Event.putPart "signature",
        Event.postCompletion ⟨false, "error uploading signature: " ++ e, ""⟩],
       match env.reportCompletion ⟨false, "error uploading signature: " ++ e, ""⟩ with
       | Except.error re =>
           some ("error uploading signature and error reporting failure: " ++
                 e ++ ", " ++ re)
       | Except.ok _ => some ("error uploading signature: " ++ e)) := by
  rcases hr : env.reportCompletion ⟨false, "error uploading signature: " ++ e, ""⟩
      with re | ⟨⟩ <;>
    simp [partsLoop, partOrder, hm, hs, hr]

theorem partsLoop_fail_aci (env : Env) (e : String)
    (hm : env.uploadPart "manifest" = Except.ok ())
    (hs : env.uploadPart "signature" = Except.ok ())
    (ha : env.uploadPart "ACI" = Except.error e) :
    partsLoop env partOrder =
      ([Event.putPart "manifest", Event.putPart "signature", Event.putPart "ACI",
        Event.postCompletion ⟨false, "error uploading ACI: " ++ e, ""⟩],
       match env.reportCompletion ⟨false, "error uploading ACI: " ++ e, ""⟩ with
       | Except.error re =>
           some ("error uploading ACI and error reporting failure: " ++
                 e ++ ", " ++ re)
       | Except.ok _ => some ("error uploading ACI: " ++ e)) := by
  rcases hr : env.reportCompletion ⟨false, "error uploading ACI: " ++ e, ""⟩
      with re | ⟨⟩ <;>
    simp [partsLoop, partOrder, hm, hs, ha, hr]

/-- C1: a session that reaches a successful initiation posts exactly
one completion message, whose success flag is true exactly when all
three part uploads succeeded; a session that fails before initiation
completes posts no completion message, and each such failure (source
opening, manifest extraction, name parsing, label resolution,
discovery, empty endpoint list, initiation) surfaces its error
directly. -/
theorem completion_exactly_once_c1 (env : Env) :
    (initiationReached env = true →
       completionFlags (Upload env).1 = [partsOkB env]) ∧
    (initiationReached env = false → completionFlags (Upload env).1 = []) ∧
    (∀ e, env.openAci = Except.error e → Upload env = ([], some e)) ∧
    (∀ e, env.openAci = Except.ok () → env.openAsc = Except.error e →
       Upload env = ([], some e)) ∧
    (∀ e, env.openAci = Except.ok () → env.openAsc = Except.ok () →
       env.manifestFromImage = Except.error e → Upload env = ([], some e)) ∧
    (∀ e man, env.openAci = Except.ok () → env.openAsc = Except.ok () →
       env.manifestFromImage = Except.ok man → env.appFromString = Except.error e →
       Upload env = ([], some e)) ∧
    (∀ e man app, env.openAci = Except.ok () → env.openAsc = Except.ok () →
       env.manifestFromImage = Except.ok man → env.appFromString = Except.ok app →
       resolveLabels env.extLit app man = Except.error e →
       Upload env = ([], some e)) ∧
    (∀ e man app l, env.openAci = Except.ok () → env.openAsc = Except.ok () →
       env.manifestFromImage = Except.ok man → env.appFromString = Except.ok app →
       resolveLabels env.extLit app man = Except.ok l →
       env.seekStart = Except.ok () → env.marshalManifest = Except.ok () →
       env.discoverEndpoints = Except.error e →
       Upload env = ([Event.discoverReq], some e)) ∧
    (∀ man app l, env.openAci = Except.ok () → env.openAsc = Except.ok () →
       env.manifestFromImage = Except.ok man → env.appFromString = Except.ok app →
       resolveLabels env.extLit app man = Except.ok l →
       env.seekStart = Except.ok () → env.marshalManifest = Except.ok () →
       env.discoverEndpoints = Except.ok [] →
       Upload env = ([Event.discoverReq], some "no endpoints discovered")) ∧
    (∀ e man app l e0 rest, env.openAci = Except.ok () → env.openAsc = Except.ok () →
       env.manifestFromImage = Except.ok man → env.appFromString = Except.ok app →
       resolveLabels env.extLit app man = Except.ok l →
       env.seekStart = Except.ok () → env.marshalManifest = Except.ok () →
       env.discoverEndpoints = Except.ok (e0 :: rest) →
       env.initiate = Except.error e →
       Upload env = ([Event.discoverReq, Event.initiateReq], some e)) := by
  refine ⟨?_, ?_, ?_, ?_, ?_, ?_, ?_, ?_, ?_, ?_⟩
  · intro h
    rw [upload_reached_eq env h]
    rcases hm : env.uploadPart "manifest" with em | ⟨⟩
    · rw [partsLoop_fail_manifest env em hm]
      simp [completionFlags, partsOkB, isOkE, hm]
    rcases hs : env.uploadPart "signature" with es | ⟨⟩
    · rw [partsLoop_fail_signature env es hm hs]
      simp [completionFlags, partsOkB, isOkE, hm, hs]
    rcases ha : env.uploadPart "ACI" with ea | ⟨⟩
    · rw [partsLoop_fail_aci env ea hm hs ha]
      simp [completionFlags, partsOkB, isOkE, hm, hs, ha]
    · rw [partsLoop_all_ok env hm hs ha]
      simp [completionFlags, partsOkB, isOkE, hm, hs, ha]
  · intro h
    rcases upload_not_reached env h with h1 | h1 | h1 <;>
      rw [h1] <;> rfl
  · intro e h1
    simp [Upload, h1]
  · intro e h1 h2
    simp [Upload, h1, h2]
  · intro e h1 h2 h3
    simp [Upload, h1, h2, h3]
  · intro e man h1 h2 h3 h4
    simp [Upload, h1, h2, h3, h4]
  · intro e man app h1 h2 h3 h4 h5
    simp [Upload, h1, h2, h3, h4, h5]
  · intro e man app l h1 h2 h3 h4 h5 h6 h7 h8
    simp [Upload, h1, h2, h3, h4, h5, h6, h7, h8]
  · intro man app l h1 h2 h3 h4 h5 h6 h7 h8
    simp [Upload, h1, h2, h3, h4, h5, h6, h7, h8]
  · intro e man app l e0 rest h1 h2 h3 h4 h5 h6 h7 h8 h9
    simp [Upload, h1, h2, h3, h4, h5, h6, h7, h8, h9]

/-- Witness for completion_exactly_once_c1: the all-green session posts
exactly one success completion. -/
theorem completion_exactly_once_c1_witness :
    initiationReached envOk = true ∧
    completionFlags (Upload envOk).1 = [partsOkB envOk] :=
  ⟨rfl, (completion_exactly_once_c1 envOk).1 rfl⟩

/-- C3: after a successful initiation, the first failing part upload
triggers exactly one failure report whose reason is the text naming the
part and the underlying error; if that report call itself fails the
session surfaces the single combined error naming both failures, and if
it succeeds the session surfaces only the original part-upload error —
with no retry of either call, as the trace shows exactly one PUT of the
failed part and one completion POST. -/
theorem part_failure_report_c3 (env : Env) (h : initiationReached env = true) :
    (∀ e, env.uploadPart "manifest" = Except.error e →
       completionMsgs (Upload env).1 =
         [⟨false, "error uploading manifest: " ++ e, ""⟩] ∧
       (∀ re, env.reportCompletion ⟨false, "error uploading manifest: " ++ e, ""⟩ =
            Except.error re →
          (Upload env).2 =
            some ("error uploading manifest and error reporting failure: " ++
                  e ++ ", " ++ re)) ∧
       (env.reportCompletion ⟨false, "error uploading manifest: " ++ e, ""⟩ =
            Except.ok () →
          (Upload env).2 = some ("error uploading manifest: " ++ e))) ∧
    (∀ e, env.uploadPart "manifest" = Except.ok () →
       env.uploadPart "signature" = Except.error e →
       completionMsgs (Upload env).1 =
         [⟨false, "error uploading signature: " ++ e, ""⟩] ∧
       (∀ re, env.reportCompletion ⟨false, "error uploading signature: " ++ e, ""⟩ =
            Except.error re →
          (Upload env).2 =
            some ("error uploading signature and error reporting failure: " ++
                  e ++ ", " ++ re)) ∧
       (env.reportCompletion ⟨false, "error uploading signature: " ++ e, ""⟩ =
            Except.ok () →
          (Upload env).2 = some ("error uploading signature: " ++ e))) ∧
    (∀ e, env.uploadPart "manifest" = Except.ok () →
       env.uploadPart "signature" = Except.ok () →
       env.uploadPart "ACI" = Except.error e →
       completionMsgs (Upload env).1 =
         [⟨false, "error uploading ACI: " ++ e, ""⟩] ∧
       (∀ re, env.reportCompletion ⟨false, "error uploading ACI: " ++ e, ""⟩ =
            Except.error re →
          (Upload env).2 =
            some ("error uploading ACI and error reporting failure: " ++
                  e ++ ", " ++ re)) ∧
       (env.reportCompletion ⟨false, "error uploading ACI: " ++ e, ""⟩ =
            Except.ok () →
          (Upload env).2 = some ("error uploading ACI: " ++ e))) := by
  rw [upload_reached_eq env h]
  refine ⟨?_, ?_, ?_⟩
  · intro e hm
    rw [partsLoop_fail_manifest env e hm]
    refine ⟨rfl, ?_, ?_⟩
    · intro re hre
      simp [hre]
    · intro hre
      simp [hre]
  · intro e hm hs
    rw [partsLoop_fail_signature env e hm hs]
    refine ⟨rfl, ?_, ?_⟩
    · intro re hre
      simp [hre]
    · intro hre
      simp [hre]
  · intro e hm hs ha
    rw [partsLoop_fail_aci env e hm hs ha]
    refine ⟨rfl, ?_, ?_⟩
    · intro re hre
      simp [hre]
    · intro hre
      simp [hre]

/-- Environment whose signature upload and failure report both fail. -/
def envSigFail : Env :=
  { envOk with
      uploadPart := fun l =>
        if l = "signature" then Except.error "disk full" else Except.ok ()
      reportCompletion := fun _ => Except.error "server down" }

/-- Witness for part_failure_report_c3: a failing signature upload
whose failure report also fails surfaces the combined error. -/
theorem part_failure_report_c3_witness :
    initiationReached envSigFail = true ∧
    envSigFail.uploadPart "manifest" = Except.ok () ∧
    envSigFail.uploadPart "signature" = Except.error "disk full" ∧
    envSigFail.reportCompletion
        ⟨false, "error uploading signature: disk full", ""⟩ =
      Except.error "server down" ∧
    (Upload envSigFail).2 =
      some "error uploading signature and error reporting failure: disk full, server down" :=
  ⟨rfl, rfl, rfl, rfl,
   (((part_failure_report_c3 envSigFail rfl).2.1 "disk full" rfl rfl).2.1
     "server down" rfl)⟩

/-- C7: in every session the part PUTs form a prefix of the fixed
order manifest, signature, ACI; the signature PUT occurs only if the
manifest upload succeeded, and the ACI PUT only if both the manifest
and the signature uploads succeeded — so no later part is ever uploaded
before or without an earlier one. -/
theorem part_order_c7 (env : Env) :
    (∃ n, putLabels (Upload env).1 = partOrder.take n) ∧
    ("signature" ∈ putLabels (Upload env).1 →
       env.uploadPart "manifest" = Except.ok ()) ∧
    ("ACI" ∈ putLabels (Upload env).1 →
       env.uploadPart "manifest" = Except.ok () ∧
       env.uploadPart "signature" = Except.ok ()) := by
  by_cases h : initiationReached env = true
  · rw [upload_reached_eq env h]
    rcases hm : env.uploadPart "manifest" with em | ⟨⟩
    · rw [partsLoop_fail_manifest env em hm]
      refine ⟨⟨1, rfl⟩, ?_, ?_⟩ <;> intro hmem <;> simp [putLabels] at hmem
    rcases hs : env.uploadPart "signature" with es | ⟨⟩
    · rw [partsLoop_fail_signature env es hm hs]
      refine ⟨⟨2, rfl⟩, fun _ => rfl, ?_⟩
      intro hmem
      simp [putLabels] at hmem
    rcases ha : env.uploadPart "ACI" with ea | ⟨⟩
    · rw [partsLoop_fail_aci env ea hm hs ha]
      exact ⟨⟨3, rfl⟩, fun _ => rfl, fun _ => ⟨rfl, rfl⟩⟩
    · rw [partsLoop_all_ok env hm hs ha]
      exact ⟨⟨3, rfl⟩, fun _ => rfl, fun _ => ⟨rfl, rfl⟩⟩
  · have h0 : initiationReached env = false := by
      cases hb : initiationReached env
      · rfl
      · exact absurd hb h
    rcases upload_not_reached env h0 with h1 | h1 | h1 <;> rw [h1] <;>
      refine ⟨⟨0, rfl⟩, ?_, ?_⟩ <;> intro hmem <;> simp [putLabels] at hmem

/-- Witness for part_order_c7: in the all-green session the signature
PUT is present, so the manifest upload must have succeeded. -/
theorem part_order_c7_witness :
    "signature" ∈ putLabels (Upload envOk).1 ∧
    envOk.uploadPart "manifest" = Except.ok () :=
  ⟨by decide, (part_order_c7 envOk).2.1 (by decide)⟩
